import Mathlib

/-!
# Verification of the ruinous-twitch-ui API layer

A shallow embedding of the two API route modules of the repository
(`src/api/addons.js`, `src/api/overlays.js`) together with the pieces of
library state they consume, and proofs of the specified properties.

Modelling choices:

* A database is a record of tables, each table a list of rows
  (`db.twitchAddon.findMany({})` returns the whole list; a Prisma `where`
  clause becomes `List.filter`; `findFirst` becomes `List.find?`).
* A request carries only what the handlers read from it: the optional
  authenticated user (`getAuthorizedUser(req, false)` yields `null` or the
  user id, modelled as `Option String`) and the route parameters, passed
  directly as arguments.
* `JSON.parse` on a stored column is modelled as an abstract injection of
  the serialized text into a distinct type of parsed documents, so the
  theorems track exactly which strings were parsed.
* `ksuid.parse(id).timestamp` and `config.get('overlayBase')` are ambient
  configuration, bundled in a context `Ctx` the handlers are parameterized
  over.
* A JavaScript object with dynamically-added fields becomes a structure
  whose optional fields are `Option`: `none` models the field being absent
  from the response object, `some v` models the field being present with
  value `v`.
* `try { ... res.json(body) } catch (error) { dbErrResponse(error, res) }`
  becomes a handler body of type `Except Err _` folded to a `Response`
  by `runHandler`.
-/

/-- The result of `JSON.parse` applied to a serialized column: an abstract
parsed document, determined by the text it was parsed from. -/
structure ParsedJSON where
  raw : String
deriving Repr, DecidableEq

/-- Model of the JavaScript `JSON.parse` used on stored columns. -/
def JSON.parse (s : String) : ParsedJSON := ⟨s⟩

/-- Ambient configuration the handlers read: the overlay base URL
(`config.get('overlayBase')` from `../config.js`) and the timestamp embedded
in a ksuid identifier (`ksuid.parse(id).timestamp` from the `ksuid`
package). -/
structure Ctx where
  overlayBase : String
  ksuidTimestamp : String → Int

/-- A row of the `twitchAddon` table: the columns the handlers read.
`configSchema` is the serialized-JSON column of the data model. -/
structure TwitchAddon where
  addonId : String
  slug : String
  configSchema : String
deriving Repr, DecidableEq

/-- A row of the user table, as included as `owner` by the overlay query. -/
structure TwitchUser where
  userId : String
deriving Repr, DecidableEq

/-- A row of the `twitchUserAddons` table, carrying its relations: the
overlay query uses `include: { addon: true, owner: true }`, so the nested
`addon` and `owner` records are part of the fetched row. -/
structure TwitchUserAddon where
  userId : String
  addonId : String
  configJSON : String
  overlayId : String
  addon : TwitchAddon
  owner : TwitchUser
deriving Repr, DecidableEq

/-- The relational store as the handlers see it. -/
structure Db where
  twitchAddon : List TwitchAddon
  twitchUserAddons : List TwitchUserAddon
deriving Repr, DecidableEq

/-- The errors a handler body can throw: the `NotFound` exception type from
`src/lib/exceptions.js`, and any other database error. -/
inductive Err where
  | notFound (message : String)
  | dbError (message : String)
deriving Repr, DecidableEq

/-- What a handler sends: `res.json(body)` on success, or one of the two
error responses produced by the shared responder. -/
inductive Response (α : Type) where
  | json (body : α)
  | notFoundJson (message : String)
  | genericError (message : String)
deriving Repr, DecidableEq

/-- Modelled from the spec: `dbErrResponse` lives in `src/lib/db.js`, which
is not among the provided source files. Per the spec, the single `NotFound`
exception type is "translated to an HTTP 404 JSON body by a shared error
responder; all other database errors pass through the same responder for a
generic failure response". -/
def dbErrResponse {α : Type} : Err → Response α
  | .notFound m => .notFoundJson m
  | .dbError m => .genericError m

/-- The `try`/`catch` wrapper every handler uses: the body runs; a produced
value is sent with `res.json`, a thrown error goes to `dbErrResponse`. -/
def runHandler {α : Type} : Except Err α → Response α
  | .ok v => .json v
  | .error e => dbErrResponse e

/-! ## `src/api/overlays.js` -/

/-- The overlay record as `getOverlayInfo` responds with it: the matching
`twitchUserAddons` row with `body.addon.configSchema` and `body.configJSON`
replaced by their `JSON.parse`d forms. -/
structure OverlayInfoOut where
  userId : String
  addonId : String
  configJSON : ParsedJSON
  overlayId : String
  addonAddonId : String
  addonSlug : String
  addonConfigSchema : ParsedJSON
  owner : TwitchUser
deriving Repr, DecidableEq

/-- Body of `getOverlayInfo` (overlays.js line 21-41): fetch the rows whose
`overlayId` matches the route parameter, throw `NotFound` unless exactly one
row matched, else parse the two serialized columns and respond with the
row. -/
def getOverlayInfoBody (db : Db) (overlayId : String) :
    Except Err OverlayInfoOut :=
  let data := db.twitchUserAddons.filter (fun r => r.overlayId == overlayId)
  if h : data.length = 1 then
    let body := data.head (by intro hn; simp [hn] at h)
    .ok { userId := body.userId
          addonId := body.addonId
          configJSON := JSON.parse body.configJSON
          overlayId := body.overlayId
          addonAddonId := body.addon.addonId
          addonSlug := body.addon.slug
          addonConfigSchema := JSON.parse body.addon.configSchema
          owner := body.owner }
  else
    .error (.notFound ("no such overlay " ++ overlayId))

/-- `getOverlayInfo`: the body inside the shared `try`/`catch`. It takes no
authenticated user: the route is public. -/
def getOverlayInfo (db : Db) (overlayId : String) : Response OverlayInfoOut :=
  runHandler (getOverlayInfoBody db overlayId)

/-- Body of `reportInvalidAPI` (overlays.js line 54-61): unconditionally
throw `NotFound('invalid API endpoint')`. -/
def reportInvalidAPIBody : Except Err Unit :=
  .error (.notFound "invalid API endpoint")

/-- `reportInvalidAPI`, the handler `addOverlayAPIs` wires to the route
`GET /api/v1/overlay/` (empty overlay ID segment). -/
def reportInvalidAPI : Response Unit :=
  runHandler reportInvalidAPIBody

/-! ## `src/api/addons.js` -/

/-- `fetchUserAddons` (addons.js line 19-36): with nobody logged in the
result dictionary is empty; otherwise it holds the rows of the logged-in
user, keyed by `addonId`. The dictionary is kept as the filtered row list;
lookups go through `userAddonsLookup`. -/
def fetchUserAddons (db : Db) (user? : Option String) : List TwitchUserAddon :=
  match user? with
  | none => []
  | some userId => db.twitchUserAddons.filter (fun r => r.userId == userId)

/-- Lookup in the dictionary built by `fetchUserAddons`: the JavaScript
builds it with `data.forEach(addon => result[addon.addonId] = addon)`, so a
later row with the same `addonId` overwrites an earlier one — the lookup
yields the last matching row. -/
def userAddonsLookup (rows : List TwitchUserAddon) (addonId : String) :
    Option TwitchUserAddon :=
  (rows.filter (fun r => r.addonId == addonId)).getLast?

/-- An entry of the array sent by `GET /api/v1/addons`: the `twitchAddon`
row with `timestamp` injected, `configSchema` parsed, `installed` set, and
`config` / `overlayUrl` present only on the code paths that assign them. -/
structure AddonListEntryOut where
  addonId : String
  slug : String
  configSchema : ParsedJSON
  timestamp : Int
  installed : Option Bool
  config : Option ParsedJSON
  overlayUrl : Option String
deriving Repr, DecidableEq

/-- The per-entry transformation of `getAddonList` (addons.js line 69-90):
inject the ksuid timestamp, look the addon up in the user dictionary, set
`installed` from that lookup (this assignment is unconditional), and when
installed populate `config` and — only for a non-empty `overlayId` — the
`overlayUrl`; finally parse the config schema. -/
def processListEntry (ctx : Ctx) (userAddons : List TwitchUserAddon)
    (entry : TwitchAddon) : AddonListEntryOut :=
  let timestamp := ctx.ksuidTimestamp entry.addonId
  let userInfo := userAddonsLookup userAddons entry.addonId
  let installed := userInfo.isSome
  { addonId := entry.addonId
    slug := entry.slug
    configSchema := JSON.parse entry.configSchema
    timestamp := timestamp
    installed := some installed
    config :=
      match userInfo with
      | some u => some (JSON.parse u.configJSON)
      | none => none
    overlayUrl :=
      match userInfo with
      | some u =>
          if u.overlayId == "" then none
          else some (ctx.overlayBase ++ "/" ++ u.overlayId)
      | none => none }

/-- The array `getAddonList` responds with (addons.js line 57-93): every
`twitchAddon` row processed, then sorted by the injected timestamp
(`result.sort((a, b) => a.timestamp - b.timestamp)`). -/
def getAddonListEntries (ctx : Ctx) (db : Db) (user? : Option String) :
    List AddonListEntryOut :=
  let result := db.twitchAddon
  let userAddons := fetchUserAddons db user?
  (result.map (processListEntry ctx userAddons)).mergeSort
    (fun a b => a.timestamp ≤ b.timestamp)

/-- Body of `getAddonList`: it throws nothing itself. -/
def getAddonListBody (ctx : Ctx) (db : Db) (user? : Option String) :
    Except Err (List AddonListEntryOut) :=
  .ok (getAddonListEntries ctx db user?)

/-- `getAddonList`: the body inside the shared `try`/`catch`. -/
def getAddonList (ctx : Ctx) (db : Db) (user? : Option String) :
    Response (List AddonListEntryOut) :=
  runHandler (getAddonListBody ctx db user?)

/-- The record sent by `GET /api/v1/addons/:key`: the matched `twitchAddon`
row with `configSchema` parsed, `installed` set, and `config` / `overlayUrl`
present only on the code paths that assign them. It carries no injected
timestamp — only the list endpoint adds one. -/
structure AddonByIdOut where
  addonId : String
  slug : String
  configSchema : ParsedJSON
  installed : Option Bool
  config : Option ParsedJSON
  overlayUrl : Option String
deriving Repr, DecidableEq

/-- Body of `getAddonById` (addons.js line 118-164): find the first addon
whose `slug` or `addonId` equals the key (`findFirst` with an `OR` clause),
throw `NotFound` when nothing matched, parse the schema, and for a logged-in
user look up their `twitchUserAddons` row by the `userId_addonId` unique
pair; set `installed` (unconditionally) and, when installed, `overlayUrl`
(the empty string for an empty `overlayId`) and `config`. -/
def getAddonByIdBody (ctx : Ctx) (db : Db) (user? : Option String)
    (key : String) : Except Err AddonByIdOut :=
  let userId := user?
  let body? := db.twitchAddon.find? (fun a => a.slug == key || a.addonId == key)
  match body? with
  | none => .error (.notFound ("no such addon " ++ key))
  | some body =>
    let userConfig : Option TwitchUserAddon :=
      match userId with
      | none => none
      | some uid =>
          db.twitchUserAddons.find?
            (fun r => r.userId == uid && r.addonId == body.addonId)
    let installed := userConfig.isSome
    .ok { addonId := body.addonId
          slug := body.slug
          configSchema := JSON.parse body.configSchema
          installed := some installed
          config :=
            match userConfig with
            | some u => some (JSON.parse u.configJSON)
            | none => none
          overlayUrl :=
            match userConfig with
            | some u =>
                some (if u.overlayId == "" then ""
                      else ctx.overlayBase ++ "/" ++ u.overlayId)
            | none => none }

/-- `getAddonById`: the body inside the shared `try`/`catch`. -/
def getAddonById (ctx : Ctx) (db : Db) (user? : Option String)
    (key : String) : Response AddonByIdOut :=
  runHandler (getAddonByIdBody ctx db user? key)

/-! ## Concrete fixtures used by the witnesses -/

/-- A concrete addon row. -/
def testAddon : TwitchAddon :=
  { addonId := "A1", slug := "slug1", configSchema := "schemaJSON" }

/-- A second concrete addon row, with a longer (so later) addonId. -/
def testAddon2 : TwitchAddon :=
  { addonId := "A2longer", slug := "slug2", configSchema := "schemaJSON2" }

/-- A concrete user. -/
def testOwner : TwitchUser := { userId := "U1" }

/-- A concrete installed-addon row with a non-empty overlay id. -/
def testRow : TwitchUserAddon :=
  { userId := "U1", addonId := "A1", configJSON := "cfgJSON",
    overlayId := "OV1", addon := testAddon, owner := testOwner }

/-- A concrete installed-addon row whose overlay id is the empty string. -/
def testRowNoOverlay : TwitchUserAddon :=
  { userId := "U1", addonId := "A1", configJSON := "cfgJSON",
    overlayId := "", addon := testAddon, owner := testOwner }

/-- A concrete database with one addon and one installed row. -/
def testDb : Db := { twitchAddon := [testAddon], twitchUserAddons := [testRow] }

/-- A concrete database whose installed row has an empty overlay id. -/
def testDbNoOverlay : Db :=
  { twitchAddon := [testAddon], twitchUserAddons := [testRowNoOverlay] }

/-- A concrete context: some base URL, and a ksuid timestamp model that reads
the embedded timestamp off the identifier (here: its length, an arbitrary
computable stand-in). -/
def testCtx : Ctx :=
  { overlayBase := "https://overlay.example", ksuidTimestamp := fun s => (s.length : Int) }

/-! ## C1 -/

/-- C1: `GET /api/v1/overlay/:overlayId` responds with the 404 JSON body
(thrown `NotFound`) whenever the number of `twitchUserAddons` rows whose
`overlayId` equals the given id differs from one — zero matches or several
matches alike — and produces a successful JSON response exactly when one row
matches. -/
theorem overlay_404_iff_match_count_not_one (db : Db) (oid : String) :
    ((db.twitchUserAddons.filter (fun r => r.overlayId == oid)).length ≠ 1 →
      getOverlayInfo db oid = Response.notFoundJson ("no such overlay " ++ oid))
    ∧ ((db.twitchUserAddons.filter (fun r => r.overlayId == oid)).length = 1 →
      ∃ b, getOverlayInfo db oid = Response.json b) := by
  constructor
  · intro h
    simp [getOverlayInfo, getOverlayInfoBody, runHandler, dbErrResponse, h]
  · intro h
    simp [getOverlayInfo, getOverlayInfoBody, runHandler, h]

/-- Witness for C1: on the concrete database, an unknown overlay id matches
zero rows and yields the 404 body, while `"OV1"` matches exactly one row and
yields a successful JSON response. -/
theorem overlay_404_iff_match_count_not_one_witness :
    getOverlayInfo testDb "missing" = Response.notFoundJson ("no such overlay " ++ "missing")
    ∧ ∃ b, getOverlayInfo testDb "OV1" = Response.json b :=
  ⟨(overlay_404_iff_match_count_not_one testDb "missing").1 (by decide),
   (overlay_404_iff_match_count_not_one testDb "OV1").2 (by decide)⟩

/-! ## C5 -/

/-- C5: on success, `GET /api/v1/overlay/:overlayId` — a route taking no
authenticated user — responds with the matching `twitchUserAddons` row
together with its included addon and owner records, where the addon's
`configSchema` column and the row's `configJSON` column have been parsed
from serialized JSON. -/
theorem overlay_success_body_shape (db : Db) (oid : String) (r : TwitchUserAddon)
    (h : db.twitchUserAddons.filter (fun x => x.overlayId == oid) = [r]) :
    getOverlayInfo db oid = Response.json
      { userId := r.userId
        addonId := r.addonId
        configJSON := JSON.parse r.configJSON
        overlayId := r.overlayId
        addonAddonId := r.addon.addonId
        addonSlug := r.addon.slug
        addonConfigSchema := JSON.parse r.addon.configSchema
        owner := r.owner } := by
  simp [getOverlayInfo, getOverlayInfoBody, runHandler, h]

/-- Witness for C5: evaluated on the concrete database at overlay id
`"OV1"`. -/
theorem overlay_success_body_shape_witness :
    getOverlayInfo testDb "OV1" = Response.json
      { userId := testRow.userId
        addonId := testRow.addonId
        configJSON := JSON.parse testRow.configJSON
        overlayId := testRow.overlayId
        addonAddonId := testRow.addon.addonId
        addonSlug := testRow.addon.slug
        addonConfigSchema := JSON.parse testRow.addon.configSchema
        owner := testRow.owner } :=
  overlay_success_body_shape testDb "OV1" testRow (by decide)

/-! ## C7 -/

/-- C7: each of the three handlers is the shared `try`/`catch` fold of its
body — any thrown error is passed to `dbErrResponse`, which turns `NotFound`
into the 404 JSON body and any other database error into the generic JSON
failure; no handler lets an error escape (each total handler yields a
`Response` for every input). -/
theorem handlers_route_errors_to_dbErrResponse :
    (∀ db oid, getOverlayInfo db oid = runHandler (getOverlayInfoBody db oid))
    ∧ (∀ ctx db u, getAddonList ctx db u = runHandler (getAddonListBody ctx db u))
    ∧ (∀ ctx db u k, getAddonById ctx db u k = runHandler (getAddonByIdBody ctx db u k))
    ∧ (∀ (α : Type) (e : Err),
        runHandler (Except.error e) = (dbErrResponse e : Response α))
    ∧ (∀ (α : Type) (m : String),
        (dbErrResponse (Err.notFound m) : Response α) = Response.notFoundJson m)
    ∧ (∀ (α : Type) (m : String),
        (dbErrResponse (Err.dbError m) : Response α) = Response.genericError m) :=
  ⟨fun _ _ => rfl, fun _ _ _ => rfl, fun _ _ _ _ => rfl,
   fun _ _ => rfl, fun _ _ => rfl, fun _ _ => rfl⟩

/-! ## C8 -/

/-- C8: the handler wired to `GET /api/v1/overlay/` (empty overlay id
segment) unconditionally throws `NotFound('invalid API endpoint')`, so it
always responds with the 404 JSON body produced by the shared responder. -/
theorem reportInvalidAPI_always_404 :
    reportInvalidAPI = Response.notFoundJson "invalid API endpoint"
    ∧ reportInvalidAPI = dbErrResponse (Err.notFound "invalid API endpoint") :=
  ⟨rfl, rfl⟩

/-! ## C4 -/

/-- C4: `GET /api/v1/addons/:key` responds with the 404 JSON body (thrown
`NotFound`) exactly when no addon row matches the key by `slug` or by
`addonId`; when some row matches, the response is the JSON of a record that
matches the key by one of the two fields. -/
theorem addonById_404_iff_no_match (ctx : Ctx) (db : Db) (user? : Option String)
    (key : String) :
    (getAddonById ctx db user? key = Response.notFoundJson ("no such addon " ++ key)
      ↔ ¬ ∃ a ∈ db.twitchAddon, (a.slug = key ∨ a.addonId = key))
    ∧ ((∃ a ∈ db.twitchAddon, (a.slug = key ∨ a.addonId = key)) →
      ∃ b, getAddonById ctx db user? key = Response.json b
        ∧ (b.slug = key ∨ b.addonId = key)) := by
  cases h : db.twitchAddon.find? (fun a => a.slug == key || a.addonId == key) with
  | none =>
    have hn : ∀ a ∈ db.twitchAddon, ¬(a.slug = key ∨ a.addonId = key) := by
      intro a ha
      have := List.find?_eq_none.mp h a ha
      simpa using this
    have hresp : getAddonById ctx db user? key =
        Response.notFoundJson ("no such addon " ++ key) := by
      simp [getAddonById, getAddonByIdBody, runHandler, dbErrResponse, h]
    refine ⟨⟨fun _ => ?_, fun _ => hresp⟩, ?_⟩
    · rintro ⟨a, ha, hor⟩
      exact hn a ha hor
    · rintro ⟨a, ha, hor⟩
      exact absurd hor (hn a ha)
  | some a =>
    have hmem : a ∈ db.twitchAddon := List.mem_of_find?_eq_some h
    have hp := List.find?_some h
    have hor : a.slug = key ∨ a.addonId = key := by simpa using hp
    have hsucc : ∃ b, getAddonById ctx db user? key = Response.json b
        ∧ (b.slug = key ∨ b.addonId = key) := by
      simp only [getAddonById, getAddonByIdBody, runHandler, h]
      exact ⟨_, rfl, by simpa using hor⟩
    refine ⟨⟨fun hresp => ?_, fun hno => absurd ⟨a, hmem, hor⟩ hno⟩, fun _ => hsucc⟩
    obtain ⟨b, hb, _⟩ := hsucc
    rw [hb] at hresp
    exact absurd hresp (by simp)

/-- Witness for C4: on the concrete database the key `"slug1"` matches the
seeded addon, and the response is that record as JSON. -/
theorem addonById_404_iff_no_match_witness :
    ∃ b, getAddonById testCtx testDb none "slug1" = Response.json b
      ∧ (b.slug = "slug1" ∨ b.addonId = "slug1") :=
  (addonById_404_iff_no_match testCtx testDb none "slug1").2
    ⟨testAddon, by decide, by decide⟩

/-! ## C2 -/

/-- Counterexample to C2 as stated: with no authenticated user, both addon
endpoints still add the computed field `installed` (with value `false`) to
the returned record — the code sets it unconditionally — so it is not true
that none of `installed`, `config`, `overlayUrl` is added. -/
theorem addons_unauthenticated_installed_still_added :
    getAddonList testCtx testDb none = Response.json
      [{ addonId := "A1", slug := "slug1", configSchema := JSON.parse "schemaJSON",
         timestamp := 2, installed := some false, config := none, overlayUrl := none }]
    ∧ getAddonById testCtx testDb none "slug1" = Response.json
      { addonId := "A1", slug := "slug1", configSchema := JSON.parse "schemaJSON",
        installed := some false, config := none, overlayUrl := none } := by
  constructor
  · simp [getAddonList, getAddonListBody, getAddonListEntries, runHandler,
      fetchUserAddons, userAddonsLookup, processListEntry, testDb, testCtx,
      testAddon, JSON.parse]
    decide
  · decide

/-- C2 amended: with no authenticated user, the two addon endpoints add
`installed = false` to every returned record but add neither `config` nor
`overlayUrl`. -/
theorem addons_unauthenticated_fields (ctx : Ctx) (db : Db) (key : String) :
    (∀ e ∈ getAddonListEntries ctx db none,
      e.installed = some false ∧ e.config = none ∧ e.overlayUrl = none)
    ∧ (∀ b, getAddonByIdBody ctx db none key = Except.ok b →
      b.installed = some false ∧ b.config = none ∧ b.overlayUrl = none) := by
  constructor
  · intro e he
    simp only [getAddonListEntries, List.mem_mergeSort, List.mem_map] at he
    obtain ⟨a, _, rfl⟩ := he
    simp [processListEntry, fetchUserAddons, userAddonsLookup]
  · intro b hb
    simp only [getAddonByIdBody] at hb
    cases h : db.twitchAddon.find? (fun a => a.slug == key || a.addonId == key) with
    | none => rw [h] at hb; exact absurd hb (by simp)
    | some a =>
      rw [h] at hb
      obtain rfl := (Except.ok.injEq _ _).mp hb.symm
      exact ⟨rfl, rfl, rfl⟩

/-- Witness for C2 amended: evaluated on the concrete database with nobody
logged in, for one list entry and for the by-key record. -/
theorem addons_unauthenticated_fields_witness :
    ((processListEntry testCtx (fetchUserAddons testDb none) testAddon).installed = some false
      ∧ (processListEntry testCtx (fetchUserAddons testDb none) testAddon).config = none
      ∧ (processListEntry testCtx (fetchUserAddons testDb none) testAddon).overlayUrl = none)
    ∧ ((AddonByIdOut.mk "A1" "slug1" (JSON.parse "schemaJSON") (some false) none none).installed = some false
      ∧ (AddonByIdOut.mk "A1" "slug1" (JSON.parse "schemaJSON") (some false) none none).config = none
      ∧ (AddonByIdOut.mk "A1" "slug1" (JSON.parse "schemaJSON") (some false) none none).overlayUrl = none) :=
  ⟨(addons_unauthenticated_fields testCtx testDb "slug1").1 _
      (by simp [getAddonListEntries, testDb]),
   (addons_unauthenticated_fields testCtx testDb "slug1").2
      (AddonByIdOut.mk "A1" "slug1" (JSON.parse "schemaJSON") (some false) none none)
      rfl⟩

/-! ## C6 -/

/-- C6: when the authenticated user has a `twitchUserAddons` row for a
returned addon, both endpoints mark the record `installed = true`, set
`config` to the parse of that row's `configJSON`, and — when the row's
`overlayId` is non-empty — set `overlayUrl` to the overlay base URL followed
by `/` and the `overlayId`. -/
theorem addons_installed_decoration (ctx : Ctx) (db : Db) (uid key : String)
    (a : TwitchAddon) (row : TwitchUserAddon) :
    (a ∈ db.twitchAddon →
      userAddonsLookup (fetchUserAddons db (some uid)) a.addonId = some row →
      ∃ e ∈ getAddonListEntries ctx db (some uid),
        e.addonId = a.addonId ∧ e.installed = some true
        ∧ e.config = some (JSON.parse row.configJSON)
        ∧ (row.overlayId ≠ "" →
          e.overlayUrl = some (ctx.overlayBase ++ "/" ++ row.overlayId)))
    ∧ (∀ b, getAddonByIdBody ctx db (some uid) key = Except.ok b →
      db.twitchUserAddons.find?
        (fun r => r.userId == uid && r.addonId == b.addonId) = some row →
      b.installed = some true ∧ b.config = some (JSON.parse row.configJSON)
      ∧ (row.overlayId ≠ "" →
        b.overlayUrl = some (ctx.overlayBase ++ "/" ++ row.overlayId))) := by
  constructor
  · intro ha hrow
    refine ⟨processListEntry ctx (fetchUserAddons db (some uid)) a, ?_, rfl, ?_, ?_, ?_⟩
    · simp only [getAddonListEntries, List.mem_mergeSort, List.mem_map]
      exact ⟨a, ha, rfl⟩
    · simp [processListEntry, hrow]
    · simp [processListEntry, hrow]
    · intro hne
      simp [processListEntry, hrow, hne]
  · intro b hb hrow
    simp only [getAddonByIdBody] at hb
    cases h : db.twitchAddon.find? (fun x => x.slug == key || x.addonId == key) with
    | none =>
      rw [h] at hb
      exact absurd hb (by simp)
    | some body =>
      rw [h] at hb
      obtain rfl := (Except.ok.injEq _ _).mp hb
      simp only at hrow
      simp [hrow]
      intro hne
      simp [hne]

/-- Witness for C6: evaluated on the concrete database where user `"U1"`
has installed the seeded addon under overlay id `"OV1"`. -/
theorem addons_installed_decoration_witness :
    (∃ e ∈ getAddonListEntries testCtx testDb (some "U1"),
      e.addonId = testAddon.addonId ∧ e.installed = some true
      ∧ e.config = some (JSON.parse testRow.configJSON)
      ∧ (testRow.overlayId ≠ "" →
        e.overlayUrl = some (testCtx.overlayBase ++ "/" ++ testRow.overlayId)))
    ∧ ((AddonByIdOut.mk "A1" "slug1" (JSON.parse "schemaJSON") (some true)
        (some (JSON.parse "cfgJSON")) (some "https://overlay.example/OV1")).installed = some true
      ∧ (AddonByIdOut.mk "A1" "slug1" (JSON.parse "schemaJSON") (some true)
        (some (JSON.parse "cfgJSON")) (some "https://overlay.example/OV1")).config
          = some (JSON.parse testRow.configJSON)
      ∧ (testRow.overlayId ≠ "" →
        (AddonByIdOut.mk "A1" "slug1" (JSON.parse "schemaJSON") (some true)
          (some (JSON.parse "cfgJSON")) (some "https://overlay.example/OV1")).overlayUrl
            = some (testCtx.overlayBase ++ "/" ++ testRow.overlayId))) :=
  ⟨(addons_installed_decoration testCtx testDb "U1" "slug1" testAddon testRow).1
      (by decide) (by decide),
   (addons_installed_decoration testCtx testDb "U1" "slug1" testAddon testRow).2
      (AddonByIdOut.mk "A1" "slug1" (JSON.parse "schemaJSON") (some true)
        (some (JSON.parse "cfgJSON")) (some "https://overlay.example/OV1"))
      rfl rfl⟩

/-! ## C9 -/

/-- C9: on an installed addon whose `twitchUserAddons` row has the empty
string as `overlayId`, the two endpoints disagree: the list endpoint leaves
`overlayUrl` absent from the entry, while the by-key endpoint includes
`overlayUrl` with the empty string as its value. -/
theorem overlayUrl_empty_endpoints_disagree (ctx : Ctx) (db : Db) (uid key : String)
    (a : TwitchAddon) (row : TwitchUserAddon) (hempty : row.overlayId = "") :
    (a ∈ db.twitchAddon →
      userAddonsLookup (fetchUserAddons db (some uid)) a.addonId = some row →
      ∃ e ∈ getAddonListEntries ctx db (some uid),
        e.addonId = a.addonId ∧ e.installed = some true ∧ e.overlayUrl = none)
    ∧ (∀ b, getAddonByIdBody ctx db (some uid) key = Except.ok b →
      db.twitchUserAddons.find?
        (fun r => r.userId == uid && r.addonId == b.addonId) = some row →
      b.installed = some true ∧ b.overlayUrl = some "") := by
  constructor
  · intro ha hrow
    refine ⟨processListEntry ctx (fetchUserAddons db (some uid)) a, ?_, rfl, ?_, ?_⟩
    · simp only [getAddonListEntries, List.mem_mergeSort, List.mem_map]
      exact ⟨a, ha, rfl⟩
    · simp [processListEntry, hrow]
    · simp [processListEntry, hrow, hempty]
  · intro b hb hrow
    simp only [getAddonByIdBody] at hb
    cases h : db.twitchAddon.find? (fun x => x.slug == key || x.addonId == key) with
    | none =>
      rw [h] at hb
      exact absurd hb (by simp)
    | some body =>
      rw [h] at hb
      obtain rfl := (Except.ok.injEq _ _).mp hb
      simp only at hrow
      simp [hrow, hempty]

/-- Witness for C9: evaluated on the concrete database whose installed row
has the empty overlay id. -/
theorem overlayUrl_empty_endpoints_disagree_witness :
    (∃ e ∈ getAddonListEntries testCtx testDbNoOverlay (some "U1"),
      e.addonId = testAddon.addonId ∧ e.installed = some true ∧ e.overlayUrl = none)
    ∧ ((AddonByIdOut.mk "A1" "slug1" (JSON.parse "schemaJSON") (some true)
        (some (JSON.parse "cfgJSON")) (some "")).installed = some true
      ∧ (AddonByIdOut.mk "A1" "slug1" (JSON.parse "schemaJSON") (some true)
        (some (JSON.parse "cfgJSON")) (some "")).overlayUrl = some "") :=
  ⟨(overlayUrl_empty_endpoints_disagree testCtx testDbNoOverlay "U1" "slug1"
      testAddon testRowNoOverlay rfl).1 (by decide) (by decide),
   (overlayUrl_empty_endpoints_disagree testCtx testDbNoOverlay "U1" "slug1"
      testAddon testRowNoOverlay rfl).2
      (AddonByIdOut.mk "A1" "slug1" (JSON.parse "schemaJSON") (some true)
        (some (JSON.parse "cfgJSON")) (some ""))
      rfl rfl⟩

/-! ## C10 -/

/-- C10: every entry the list endpoint responds with carries an injected
`timestamp` field equal to the ksuid-embedded creation timestamp of its
`addonId`, whether or not any user is authenticated (the statement is
universal over the optional user). -/
theorem addonList_timestamp_injected (ctx : Ctx) (db : Db) (user? : Option String) :
    getAddonList ctx db user? = Response.json (getAddonListEntries ctx db user?)
    ∧ ∀ e ∈ getAddonListEntries ctx db user?,
      e.timestamp = ctx.ksuidTimestamp e.addonId := by
  refine ⟨rfl, ?_⟩
  intro e he
  simp only [getAddonListEntries, List.mem_mergeSort, List.mem_map] at he
  obtain ⟨a, _, rfl⟩ := he
  rfl

/-- Witness for C10: evaluated on the concrete database, with nobody logged
in, at the single entry of the response. -/
theorem addonList_timestamp_injected_witness :
    (processListEntry testCtx (fetchUserAddons testDb none) testAddon).timestamp =
      testCtx.ksuidTimestamp
        (processListEntry testCtx (fetchUserAddons testDb none) testAddon).addonId :=
  (addonList_timestamp_injected testCtx testDb none).2 _
    (by simp [getAddonListEntries, testDb])

/-! ## C3 -/

/-- C3: the array the list endpoint responds with is sorted ascending by the
creation timestamp embedded in each entry's `addonId`: consecutive entries
have nondecreasing `timestamp` fields, and equally nondecreasing
ksuid-parsed timestamps of their `addonId`s. -/
theorem addonList_sorted_by_ksuid_timestamp (ctx : Ctx) (db : Db) (user? : Option String) :
    getAddonList ctx db user? = Response.json (getAddonListEntries ctx db user?)
    ∧ List.Chain' (fun e f => e.timestamp ≤ f.timestamp) (getAddonListEntries ctx db user?)
    ∧ List.Chain' (fun e f => ctx.ksuidTimestamp e.addonId ≤ ctx.ksuidTimestamp f.addonId)
        (getAddonListEntries ctx db user?) := by
  have hts : ∀ e ∈ getAddonListEntries ctx db user?,
      e.timestamp = ctx.ksuidTimestamp e.addonId := by
    intro e he
    simp only [getAddonListEntries, List.mem_mergeSort, List.mem_map] at he
    obtain ⟨a, _, rfl⟩ := he
    rfl
  have hpw0 : ((db.twitchAddon.map
      (processListEntry ctx (fetchUserAddons db user?))).mergeSort
        (fun a b => decide (a.timestamp ≤ b.timestamp))).Pairwise
        (fun a b => decide (a.timestamp ≤ b.timestamp) = true) :=
    List.sorted_mergeSort
      (by intro a b c h1 h2; simp at h1 h2 ⊢; omega)
      (by intro a b; simp; omega)
      _
  have hpw : List.Pairwise (fun e f : AddonListEntryOut => e.timestamp ≤ f.timestamp)
      (getAddonListEntries ctx db user?) :=
    hpw0.imp (by intro a b h; simpa using h)
  have hpw2 : List.Pairwise (fun e f : AddonListEntryOut =>
      ctx.ksuidTimestamp e.addonId ≤ ctx.ksuidTimestamp f.addonId)
      (getAddonListEntries ctx db user?) :=
    hpw.imp_of_mem (by intro a b ha hb h; rw [← hts a ha, ← hts b hb]; exact h)
  exact ⟨rfl, hpw.chain', hpw2.chain'⟩
